import Mathlib

/-!
Shallow embedding of `src/DeleteImages.py` (Delete-Images-by-Size).

The program scans a single folder, filters files by image extension,
reads each candidate's pixel dimensions, deletes those strictly smaller
than a threshold (unless `--dry-run`), and tallies kept/deleted/errored
counters.  External effects (filesystem, PIL image reader, deletion
success) are modelled as fields of a `FileEntry`: `dims` is what
`get_image_dimensions` would return (`none` = decode failure) and
`deletable` is whether `Path.unlink` would succeed.
-/

/-- A directory entry as the program observes it.  `dims` models the
result of `get_image_dimensions` (PIL `Image.open(...).size`, `none` on
failure); `deletable` models whether `file_path.unlink()` succeeds. -/
structure FileEntry where
  name : String
  isFile : Bool
  dims : Option (Int × Int)
  deletable : Bool
deriving Repr, DecidableEq

/-- The target folder: existence and directory-ness as `Path.exists()` /
`Path.is_dir()` report them, plus the direct entries `Path.iterdir()`
would enumerate. -/
structure Folder where
  fexists : Bool
  is_dir : Bool
  files : List FileEntry
deriving Repr, DecidableEq

/-- Per-file console notices the run emits. -/
inductive Notice where
  | warningRead (name : String)
  | wouldDelete (name : String) (w h : Int)
  | deleted (name : String) (w h : Int)
  | errorDeleting (name : String)
  | kept (name : String) (w h : Int)
deriving Repr, DecidableEq

/-- The three counters of `delete_small_images`. -/
structure RunCounters where
  deleted : Nat
  kept : Nat
  errored : Nat
deriving Repr, DecidableEq

/-- Outcome of `delete_small_images`: early return on a bad folder, early
return when no image files were found, or a completed scan carrying the
number of image files found, the counters, and the per-file notices. -/
inductive RunResult where
  | invalidFolder
  | noImages
  | completed (numImages : Nat) (counters : RunCounters) (notices : List Notice)
deriving Repr, DecidableEq

/-- Python's `str.lower()` restricted to per-character lowering (ASCII). -/
def strLower (s : String) : String :=
  String.mk (s.toList.map Char.toLower)

/-- The whitespace characters `str.strip()` removes. -/
def pyIsSpace (c : Char) : Bool :=
  c = ' ' || c = '\t' || c = '\n' || c = '\r' || c.toNat = 11 || c.toNat = 12

/-- Python's `str.strip()`: drop whitespace from both ends. -/
def pyStrip (s : String) : String :=
  String.mk (((s.toList.dropWhile pyIsSpace).reverse.dropWhile pyIsSpace).reverse)

/-- Python's `pathlib.PurePath.suffix`: the extension of the final
component, including the dot; empty when the last dot is absent, leads
the name, or ends it. -/
def pySuffix (name : String) : String :=
  let cs := name.toList
  let rcs := cs.reverse
  match rcs.findIdx? (fun c => c = '.') with
  | none => ""
  | some j =>
    if 0 < j ∧ j < cs.length - 1 then
      String.mk ('.' :: (rcs.take j).reverse)
    else ""

/-- The recognized extension set of `is_image_file` (source line 29). -/
def image_extensions : List String :=
  [".jpg", ".jpeg", ".png", ".bmp", ".gif", ".tiff", ".tif", ".webp"]

/-- Source `is_image_file`: the lowercased suffix is in the recognized set. -/
def is_image_file (name : String) : Bool :=
  image_extensions.contains (strLower (pySuffix name))

/-- The `all_files`/`image_files` computation of `delete_small_images`
(lines 63-64):
regular files of the folder whose name passes `is_image_file`. -/
def imageCandidates (folder : Folder) : List FileEntry :=
  ((folder.files.filter (fun f => f.isFile)).filter (fun f => is_image_file f.name))

/-- Body of the per-file loop (lines 73-95): classify one candidate,
producing its counter increments, its notices, and the entries it
removes from disk. -/
def processFile (min_width min_height : Int) (dry_run : Bool) (f : FileEntry) :
    RunCounters × List Notice × List FileEntry :=
  match f.dims with
  | none => ({ deleted := 0, kept := 0, errored := 1 }, [Notice.warningRead f.name], [])
  | some (w, h) =>
    if w < min_width || h < min_height then
      if dry_run then
        ({ deleted := 0, kept := 0, errored := 0 }, [Notice.wouldDelete f.name w h], [])
      else if f.deletable then
        ({ deleted := 1, kept := 0, errored := 0 }, [Notice.deleted f.name w h], [f])
      else
        ({ deleted := 0, kept := 0, errored := 1 }, [Notice.errorDeleting f.name], [])
    else
      ({ deleted := 0, kept := 1, errored := 0 }, [Notice.kept f.name w h], [])

/-- The loop of lines 73-95 over the snapshot `image_files`. -/
def processFiles (min_width min_height : Int) (dry_run : Bool) :
    List FileEntry → RunCounters × List Notice × List FileEntry
  | [] => ({ deleted := 0, kept := 0, errored := 0 }, [], [])
  | f :: rest =>
    let r := processFile min_width min_height dry_run f
    let rs := processFiles min_width min_height dry_run rest
    ({ deleted := r.1.deleted + rs.1.deleted,
       kept := r.1.kept + rs.1.kept,
       errored := r.1.errored + rs.1.errored },
     r.2.1 ++ rs.2.1,
     r.2.2 ++ rs.2.2)

/-- Source `delete_small_images(folder_path, min_width, min_height, dry_run)`:
validate the folder, enumerate candidates, run the loop; the returned
folder is the post-state (entries successfully unlinked are gone). -/
def delete_small_images (folder : Folder) (min_width min_height : Int)
    (dry_run : Bool) : RunResult × Folder :=
  if folder.fexists = false then (RunResult.invalidFolder, folder)
  else if folder.is_dir = false then (RunResult.invalidFolder, folder)
  else
    let image_files := imageCandidates folder
    if image_files.isEmpty then (RunResult.noImages, folder)
    else
      let r := processFiles min_width min_height dry_run image_files
      (RunResult.completed image_files.length r.1 r.2.1,
       { folder with files := folder.files.filter (fun g => !decide (g ∈ r.2.2)) })

/-- The folder after a run: the entries whose `unlink()` the run
performed successfully are gone. -/
def survivors (folder : Folder) (removed : List FileEntry) : Folder :=
  { folder with files := folder.files.filter (fun g => !decide (g ∈ removed)) }

/-- The confirmation test of `main` (lines 140-141):
`input(...).lower().strip() in ['yes', 'y']`. -/
def confirmAccepted (response : String) : Bool :=
  let r := pyStrip (strLower response)
  r = "yes" || r = "y"

/-- Source `main` (renamed: Lean reserves the name `main`): when
not a dry run, gate the scan on the operator's response; on cancellation
nothing runs and the folder is untouched. -/
def mainRun (folder : Folder) (width height : Int) (dry_run : Bool)
    (response : String) : Option RunResult × Folder :=
  if dry_run = false && confirmAccepted response = false then (none, folder)
  else
    let r := delete_small_images folder width height dry_run
    (some r.1, r.2)

/-- The deleted count a run reports (0 for the early returns, which print
no counters). -/
def resultDeleted : RunResult → Nat
  | RunResult.completed _ c _ => c.deleted
  | _ => 0

/-- The "deleted" line of the summary (lines 100-103): under dry run it is
derived as `len(image_files) - kept_count - error_count`, otherwise it is
the `deleted_count` counter. -/
def effectiveDeleted (dry_run : Bool) (numImages : Nat) (c : RunCounters) : Nat :=
  if dry_run then numImages - c.kept - c.errored else c.deleted

/-- The reader succeeds on this entry. -/
def readableB (f : FileEntry) : Bool :=
  f.dims.isSome

/-- The entry reads successfully and is strictly under the threshold. -/
def undersizedB (min_width min_height : Int) (f : FileEntry) : Bool :=
  match f.dims with
  | none => false
  | some (w, h) => w < min_width || h < min_height

/-- The entry ends in the `kept` counter: readable and not undersized. -/
def keptP (min_width min_height : Int) (f : FileEntry) : Bool :=
  match f.dims with
  | none => false
  | some (w, h) => !(w < min_width || h < min_height)

/-- The entry would actually be unlinked in a non-dry run. -/
def delP (min_width min_height : Int) (f : FileEntry) : Bool :=
  undersizedB min_width min_height f && f.deletable

/-- The entry ends in the `errored` counter: read failure, or (non-dry)
a failed deletion of an undersized file. -/
def errP (min_width min_height : Int) (dry_run : Bool) (f : FileEntry) : Bool :=
  !readableB f || (!dry_run && undersizedB min_width min_height f && !f.deletable)

/-- The entry ends deleted (non-dry, unlink succeeds) or would-delete
(dry run). -/
def delWouldP (min_width min_height : Int) (dry_run : Bool) (f : FileEntry) : Bool :=
  undersizedB min_width min_height f && (dry_run || f.deletable)

/-- Direct formulation following the spec: the number of
successfully-read candidates whose width or height is strictly below the
threshold. -/
def specWouldDeleteCount (min_width min_height : Int) (folder : Folder) : Nat :=
  ((imageCandidates folder).filter
    (fun f => undersizedB min_width min_height f)).length

/-- A notice announcing an undersized classification. -/
def noticeIsUndersizedAction : Notice → Bool
  | Notice.wouldDelete _ _ _ => true
  | Notice.deleted _ _ _ => true
  | Notice.errorDeleting _ => true
  | _ => false

/-- A notice announcing a per-file error. -/
def noticeIsError : Notice → Bool
  | Notice.warningRead _ => true
  | Notice.errorDeleting _ => true
  | _ => false

/-- The file a notice is about. -/
def noticeName : Notice → String
  | Notice.warningRead n => n
  | Notice.wouldDelete n _ _ => n
  | Notice.deleted n _ _ => n
  | Notice.errorDeleting n => n
  | Notice.kept n _ _ => n

/-- An 800x600 readable image entry. -/
def sampleBig : FileEntry :=
  { name := "a.jpg", isFile := true, dims := some (800, 600), deletable := true }

/-- A 200x200 readable image entry. -/
def sampleSmall : FileEntry :=
  { name := "b.png", isFile := true, dims := some (200, 200), deletable := true }

/-- A corrupt image entry: the reader fails on it. -/
def sampleCorrupt : FileEntry :=
  { name := "c.webp", isFile := true, dims := none, deletable := true }

/-- A non-image entry. -/
def sampleText : FileEntry :=
  { name := "notes.txt", isFile := true, dims := none, deletable := true }

/-- An undersized image whose deletion fails. -/
def sampleStuck : FileEntry :=
  { name := "d.gif", isFile := true, dims := some (10, 10), deletable := false }

/-- The counters the sample run produces. -/
def sampleCounters : RunCounters :=
  { deleted := 1, kept := 1, errored := 1 }

/-- The notices the sample run emits. -/
def sampleNotices : List Notice :=
  [Notice.kept "a.jpg" 800 600, Notice.deleted "b.png" 200 200,
   Notice.warningRead "c.webp"]

/-- The sample folder after the non-dry sample run. -/
def sampleAfter : Folder :=
  { fexists := true, is_dir := true, files := [sampleBig, sampleCorrupt] }

/-- A valid folder holding the three sample images. -/
def sampleFolder : Folder :=
  { fexists := true, is_dir := true, files := [sampleBig, sampleSmall, sampleCorrupt] }

/-- A path that does not exist. -/
def missingFolder : Folder :=
  { fexists := false, is_dir := false, files := [] }

theorem processFile_kept (mw mh : Int) (dry : Bool) (f : FileEntry) :
    (processFile mw mh dry f).1.kept = if keptP mw mh f then 1 else 0 := by
  unfold processFile keptP
  cases f.dims with
  | none => simp
  | some p =>
    obtain ⟨w, h⟩ := p
    by_cases hu : (w < mw || h < mh) = true
    · simp only [hu]
      cases dry <;> cases hdel : f.deletable <;> simp
    · simp only [Bool.not_eq_true] at hu
      simp [hu]

theorem processFile_deleted (mw mh : Int) (dry : Bool) (f : FileEntry) :
    (processFile mw mh dry f).1.deleted = if (!dry && delP mw mh f) then 1 else 0 := by
  unfold processFile delP undersizedB
  cases f.dims with
  | none => simp
  | some p =>
    obtain ⟨w, h⟩ := p
    by_cases hu : (w < mw || h < mh) = true
    · simp only [hu]
      cases dry <;> cases hdel : f.deletable <;> simp [hdel]
    · simp only [Bool.not_eq_true] at hu
      simp [hu]

theorem processFile_errored (mw mh : Int) (dry : Bool) (f : FileEntry) :
    (processFile mw mh dry f).1.errored = if errP mw mh dry f then 1 else 0 := by
  unfold processFile errP undersizedB readableB
  cases f.dims with
  | none => simp
  | some p =>
    obtain ⟨w, h⟩ := p
    by_cases hu : (w < mw || h < mh) = true
    · simp only [hu]
      cases dry <;> cases hdel : f.deletable <;> simp [hdel]
    · simp only [Bool.not_eq_true] at hu
      simp [hu]

theorem processFile_removed (mw mh : Int) (dry : Bool) (f : FileEntry) :
    (processFile mw mh dry f).2.2 = if (!dry && delP mw mh f) then [f] else [] := by
  unfold processFile delP undersizedB
  cases f.dims with
  | none => simp
  | some p =>
    obtain ⟨w, h⟩ := p
    by_cases hu : (w < mw || h < mh) = true
    · simp only [hu]
      cases dry <;> cases hdel : f.deletable <;> simp [hdel]
    · simp only [Bool.not_eq_true] at hu
      simp [hu]

theorem processFiles_kept (mw mh : Int) (dry : Bool) (fs : List FileEntry) :
    (processFiles mw mh dry fs).1.kept = (fs.filter (keptP mw mh)).length := by
  induction fs with
  | nil => simp [processFiles]
  | cons f rest ih =>
    simp only [processFiles, List.filter_cons, processFile_kept, ih]
    by_cases hk : keptP mw mh f = true
    · simp [hk]
      omega
    · simp [hk]

theorem processFiles_deleted (mw mh : Int) (dry : Bool) (fs : List FileEntry) :
    (processFiles mw mh dry fs).1.deleted =
      (fs.filter (fun f => !dry && delP mw mh f)).length := by
  induction fs with
  | nil => simp [processFiles]
  | cons f rest ih =>
    simp only [processFiles, List.filter_cons, processFile_deleted, ih]
    by_cases hk : (!dry && delP mw mh f) = true
    · simp [hk]
      omega
    · simp [hk]

theorem processFiles_errored (mw mh : Int) (dry : Bool) (fs : List FileEntry) :
    (processFiles mw mh dry fs).1.errored = (fs.filter (errP mw mh dry)).length := by
  induction fs with
  | nil => simp [processFiles]
  | cons f rest ih =>
    simp only [processFiles, List.filter_cons, processFile_errored, ih]
    by_cases hk : errP mw mh dry f = true
    · simp [hk]
      omega
    · simp [hk]

theorem processFiles_removed (mw mh : Int) (dry : Bool) (fs : List FileEntry) :
    (processFiles mw mh dry fs).2.2 = fs.filter (fun f => !dry && delP mw mh f) := by
  induction fs with
  | nil => simp [processFiles]
  | cons f rest ih =>
    simp only [processFiles, List.filter_cons, processFile_removed, ih]
    by_cases hk : (!dry && delP mw mh f) = true <;> simp [hk]

theorem processFiles_notices (mw mh : Int) (dry : Bool) (f : FileEntry)
    (rest : List FileEntry) :
    (processFiles mw mh dry (f :: rest)).2.1 =
      (processFile mw mh dry f).2.1 ++ (processFiles mw mh dry rest).2.1 := rfl

theorem counterPartition (mw mh : Int) (dry : Bool) (f : FileEntry) :
    ((if keptP mw mh f then 1 else 0) + (if delWouldP mw mh dry f then 1 else 0)
      + (if errP mw mh dry f then 1 else 0) : Nat) = 1 := by
  unfold keptP delWouldP errP undersizedB readableB
  cases f.dims with
  | none => simp
  | some p =>
    obtain ⟨w, h⟩ := p
    by_cases hu : (w < mw || h < mh) = true
    · simp only [hu]
      cases dry <;> cases hdel : f.deletable <;> simp [hdel]
    · simp only [Bool.not_eq_true] at hu
      simp [hu]

theorem filterPartition (mw mh : Int) (dry : Bool) (fs : List FileEntry) :
    (fs.filter (keptP mw mh)).length + (fs.filter (delWouldP mw mh dry)).length
      + (fs.filter (errP mw mh dry)).length = fs.length := by
  induction fs with
  | nil => simp
  | cons f rest ih =>
    have hpart := counterPartition mw mh dry f
    simp only [List.filter_cons, List.length_cons]
    by_cases h1 : keptP mw mh f = true <;>
      by_cases h2 : delWouldP mw mh dry f = true <;>
        by_cases h3 : errP mw mh dry f = true <;>
          simp [h1, h2, h3] at hpart ⊢ <;> omega

theorem delWouldP_false (mw mh : Int) (f : FileEntry) :
    delWouldP mw mh false f = (!false && delP mw mh f) := by
  unfold delWouldP delP
  cases hu : undersizedB mw mh f <;> simp

theorem dsi_invalid (folder : Folder) (mw mh : Int) (dry : Bool)
    (h : folder.fexists = false ∨ folder.is_dir = false) :
    delete_small_images folder mw mh dry = (RunResult.invalidFolder, folder) := by
  unfold delete_small_images
  rcases h with h | h
  · simp [h]
  · by_cases h1 : folder.fexists = false <;> simp [h1, h]

theorem dsi_noImages (folder : Folder) (mw mh : Int) (dry : Bool)
    (h1 : folder.fexists = true) (h2 : folder.is_dir = true)
    (h3 : (imageCandidates folder).isEmpty = true) :
    delete_small_images folder mw mh dry = (RunResult.noImages, folder) := by
  unfold delete_small_images
  simp [h1, h2, h3]

theorem dsi_eq (folder : Folder) (mw mh : Int) (dry : Bool)
    (h1 : folder.fexists = true) (h2 : folder.is_dir = true)
    (h3 : (imageCandidates folder).isEmpty = false) :
    delete_small_images folder mw mh dry =
      (RunResult.completed (imageCandidates folder).length
        (processFiles mw mh dry (imageCandidates folder)).1
        (processFiles mw mh dry (imageCandidates folder)).2.1,
       survivors folder (processFiles mw mh dry (imageCandidates folder)).2.2) := by
  unfold delete_small_images survivors
  simp [h1, h2, h3]

theorem dsi_completed_inv {folder : Folder} {mw mh : Int} {dry : Bool}
    {n : Nat} {c : RunCounters} {ns : List Notice} {g : Folder}
    (hrun : delete_small_images folder mw mh dry = (RunResult.completed n c ns, g)) :
    folder.fexists = true ∧ folder.is_dir = true ∧
    (imageCandidates folder).isEmpty = false ∧
    n = (imageCandidates folder).length ∧
    c = (processFiles mw mh dry (imageCandidates folder)).1 ∧
    ns = (processFiles mw mh dry (imageCandidates folder)).2.1 ∧
    g = survivors folder (processFiles mw mh dry (imageCandidates folder)).2.2 := by
  by_cases h1 : folder.fexists = true
  · by_cases h2 : folder.is_dir = true
    · by_cases h3 : (imageCandidates folder).isEmpty = false
      · rw [dsi_eq folder mw mh dry h1 h2 h3] at hrun
        rw [Prod.mk.injEq] at hrun
        obtain ⟨hl, hr⟩ := hrun
        rw [RunResult.completed.injEq] at hl
        exact ⟨h1, h2, h3, hl.1.symm, hl.2.1.symm, hl.2.2.symm, hr.symm⟩
      · simp only [Bool.not_eq_false] at h3
        have := dsi_noImages folder mw mh dry h1 h2 h3
        rw [this] at hrun
        simp at hrun
    · simp only [Bool.not_eq_true] at h2
      rw [dsi_invalid folder mw mh dry (Or.inr h2)] at hrun
      simp at hrun
  · simp only [Bool.not_eq_true] at h1
    rw [dsi_invalid folder mw mh dry (Or.inl h1)] at hrun
    simp at hrun

theorem survivors_nil (folder : Folder) : survivors folder [] = folder := by
  unfold survivors
  simp

theorem processFiles_removed_dry (mw mh : Int) (fs : List FileEntry) :
    (processFiles mw mh true fs).2.2 = [] := by
  rw [processFiles_removed]
  simp

theorem processFiles_removed_nondry (mw mh : Int) (fs : List FileEntry) :
    (processFiles mw mh false fs).2.2 = fs.filter (delP mw mh) := by
  rw [processFiles_removed]
  simp

theorem processFiles_deleted_nondry (mw mh : Int) (fs : List FileEntry) :
    (processFiles mw mh false fs).1.deleted = (fs.filter (delP mw mh)).length := by
  rw [processFiles_deleted]
  simp

theorem processFiles_deleted_dry (mw mh : Int) (fs : List FileEntry) :
    (processFiles mw mh true fs).1.deleted = 0 := by
  rw [processFiles_deleted]
  simp

theorem delWouldP_true (mw mh : Int) (f : FileEntry) :
    delWouldP mw mh true f = undersizedB mw mh f := by
  unfold delWouldP
  cases hu : undersizedB mw mh f <;> simp

theorem survivors_fexists (folder : Folder) (rem : List FileEntry) :
    (survivors folder rem).fexists = folder.fexists := rfl

theorem survivors_is_dir (folder : Folder) (rem : List FileEntry) :
    (survivors folder rem).is_dir = folder.is_dir := rfl

theorem dsi_dry_snd (folder : Folder) (mw mh : Int) :
    (delete_small_images folder mw mh true).2 = folder := by
  by_cases h1 : folder.fexists = true
  · by_cases h2 : folder.is_dir = true
    · by_cases h3 : (imageCandidates folder).isEmpty = false
      · rw [dsi_eq folder mw mh true h1 h2 h3, processFiles_removed_dry, survivors_nil]
      · rw [dsi_noImages folder mw mh true h1 h2 (by simpa using h3)]
    · rw [dsi_invalid folder mw mh true (Or.inr (by simpa using h2))]
  · rw [dsi_invalid folder mw mh true (Or.inl (by simpa using h1))]

theorem mem_imageCandidates {folder : Folder} {x : FileEntry}
    (hx : x ∈ imageCandidates folder) :
    x ∈ folder.files ∧ x.isFile = true ∧ is_image_file x.name = true := by
  unfold imageCandidates at hx
  rw [List.mem_filter] at hx
  obtain ⟨hx1, hx2⟩ := hx
  rw [List.mem_filter] at hx1
  exact ⟨hx1.1, hx1.2, hx2⟩

theorem imageCandidates_mem {folder : Folder} {x : FileEntry}
    (h1 : x ∈ folder.files) (h2 : x.isFile = true) (h3 : is_image_file x.name = true) :
    x ∈ imageCandidates folder := by
  unfold imageCandidates
  rw [List.mem_filter]
  exact ⟨List.mem_filter.mpr ⟨h1, h2⟩, h3⟩

theorem second_run_no_deletions (folder : Folder) (mw mh : Int) :
    ((imageCandidates (survivors folder
        ((imageCandidates folder).filter (delP mw mh)))).filter (delP mw mh)) = [] := by
  rw [List.filter_eq_nil_iff]
  intro x hx
  obtain ⟨hxf, hxfile, hximg⟩ := mem_imageCandidates hx
  unfold survivors at hxf
  simp only [List.mem_filter] at hxf
  obtain ⟨hxmem, hxnot⟩ := hxf
  intro hdel
  have hxcand : x ∈ imageCandidates folder := imageCandidates_mem hxmem hxfile hximg
  have : x ∈ (imageCandidates folder).filter (delP mw mh) :=
    List.mem_filter.mpr ⟨hxcand, hdel⟩
  simp [this] at hxnot
  simp_all

/-- C4: when the target folder does not exist or is not a directory, the
run fails with the invalid-folder outcome for any thresholds and dry-run
value: it produces no counters, leaves the folder untouched, and emits no
per-file notices. -/
theorem C4_invalid_folder_aborts (folder : Folder) (mw mh : Int) (dry : Bool)
    (h : folder.fexists = false ∨ folder.is_dir = false) :
    delete_small_images folder mw mh dry = (RunResult.invalidFolder, folder) :=
  dsi_invalid folder mw mh dry h

/-- C4 witness: a missing folder aborts with the invalid-folder outcome. -/
theorem C4_invalid_folder_aborts_witness :
    (missingFolder.fexists = false ∨ missingFolder.is_dir = false) ∧
    delete_small_images missingFolder 400 400 false =
      (RunResult.invalidFolder, missingFolder) :=
  ⟨Or.inl (by decide),
   C4_invalid_folder_aborts missingFolder 400 400 false (Or.inl (by decide))⟩

/-- C7: a dry run mutates nothing, so its post-state is the input folder,
and repeating it yields the identical outcome (counters, notices, state). -/
theorem C7_dry_run_idempotent (folder : Folder) (mw mh : Int) :
    (delete_small_images folder mw mh true).2 = folder ∧
    delete_small_images (delete_small_images folder mw mh true).2 mw mh true =
      delete_small_images folder mw mh true := by
  refine ⟨dsi_dry_snd folder mw mh, ?_⟩
  rw [dsi_dry_snd folder mw mh]

/-- C8: after a non-dry run, a second non-dry run on the resulting folder
with the same threshold deletes nothing: its deleted count is zero. -/
theorem C8_deletion_fixed_point (folder : Folder) (mw mh : Int) :
    resultDeleted
      (delete_small_images (delete_small_images folder mw mh false).2 mw mh false).1 = 0 := by
  by_cases h1 : folder.fexists = true
  · by_cases h2 : folder.is_dir = true
    · by_cases h3 : (imageCandidates folder).isEmpty = false
      · rw [dsi_eq folder mw mh false h1 h2 h3, processFiles_removed_nondry]
        set g := survivors folder ((imageCandidates folder).filter (delP mw mh)) with hg
        show resultDeleted (delete_small_images g mw mh false).1 = 0
        have hg1 : g.fexists = true := by rw [hg, survivors_fexists]; exact h1
        have hg2 : g.is_dir = true := by rw [hg, survivors_is_dir]; exact h2
        by_cases h4 : (imageCandidates g).isEmpty = false
        · rw [dsi_eq g mw mh false hg1 hg2 h4]
          show (processFiles mw mh false (imageCandidates g)).1.deleted = 0
          rw [processFiles_deleted_nondry, hg, second_run_no_deletions]
          rfl
        · rw [dsi_noImages g mw mh false hg1 hg2 (by simpa using h4)]
          rfl
      · rw [dsi_noImages folder mw mh false h1 h2 (by simpa using h3)]
        show resultDeleted (delete_small_images folder mw mh false).1 = 0
        rw [dsi_noImages folder mw mh false h1 h2 (by simpa using h3)]
        rfl
    · have hinv := dsi_invalid folder mw mh false (Or.inr (by simpa using h2))
      rw [hinv]
      show resultDeleted (delete_small_images folder mw mh false).1 = 0
      rw [hinv]
      rfl
  · have hinv := dsi_invalid folder mw mh false (Or.inl (by simpa using h1))
    rw [hinv]
    show resultDeleted (delete_small_images folder mw mh false).1 = 0
    rw [hinv]
    rfl

/-- C2: for a candidate whose dimensions are read as (w, h), the run
classifies it undersized (a would-delete, deleted, or failed-delete
notice) exactly when w < minWidth or h < minHeight; it lands in `kept`
exactly otherwise, and in particular the boundary w = minWidth,
h = minHeight is kept and never unlinked. -/
theorem C2_strict_threshold (mw mh : Int) (dry : Bool) (f : FileEntry)
    (w h : Int) (hd : f.dims = some (w, h)) :
    ((processFile mw mh dry f).2.1.any noticeIsUndersizedAction = true ↔
      (w < mw ∨ h < mh)) ∧
    ((processFile mw mh dry f).1.kept = 1 ↔ ¬(w < mw ∨ h < mh)) ∧
    (w = mw ∧ h = mh →
      (processFile mw mh dry f).1.kept = 1 ∧ (processFile mw mh dry f).2.2 = []) := by
  unfold processFile
  rw [hd]
  by_cases hu : (w < mw || h < mh) = true
  · have hp : w < mw ∨ h < mh := by simpa using hu
    simp only [hu]
    refine ⟨?_, ?_, ?_⟩
    · cases dry <;> cases hdel : f.deletable <;>
        simp [hdel, noticeIsUndersizedAction, hp]
    · cases dry <;> cases hdel : f.deletable <;>
        simp [hdel, hp]
    · rintro ⟨rfl, rfl⟩
      omega
  · have hp : ¬(w < mw ∨ h < mh) := by simpa using hu
    have hu' : (w < mw || h < mh) = false := by simpa using hu
    simp [hu', noticeIsUndersizedAction, hp]

/-- C2 witness: an 800x600 image at threshold 800x800 is undersized
(600 < 800); the iff and boundary clause hold at this instance. -/
theorem C2_strict_threshold_witness :
    sampleBig.dims = some (800, 600) ∧
    (((processFile 800 800 false sampleBig).2.1.any noticeIsUndersizedAction = true ↔
        ((800 : Int) < 800 ∨ (600 : Int) < 800)) ∧
      ((processFile 800 800 false sampleBig).1.kept = 1 ↔
        ¬((800 : Int) < 800 ∨ (600 : Int) < 800)) ∧
      ((800 : Int) = 800 ∧ (600 : Int) = 800 →
        (processFile 800 800 false sampleBig).1.kept = 1 ∧
        (processFile 800 800 false sampleBig).2.2 = [])) :=
  ⟨rfl, C2_strict_threshold 800 800 false sampleBig 800 600 rfl⟩

/-- C1: for every run that passes validation and finds candidates, the
kept / deleted-or-would-delete / errored counts are the sizes of the
three candidate classes, each candidate falls in exactly one class, and
the three counts sum to the number of candidates enumerated. -/
theorem C1_counters_partition (folder : Folder) (mw mh : Int) (dry : Bool)
    (n : Nat) (c : RunCounters) (ns : List Notice) (g : Folder)
    (hrun : delete_small_images folder mw mh dry = (RunResult.completed n c ns, g)) :
    c.kept = ((imageCandidates folder).filter (keptP mw mh)).length ∧
    c.errored = ((imageCandidates folder).filter (errP mw mh dry)).length ∧
    effectiveDeleted dry n c =
      ((imageCandidates folder).filter (delWouldP mw mh dry)).length ∧
    c.kept + effectiveDeleted dry n c + c.errored = n ∧
    (∀ f ∈ imageCandidates folder,
      ((if keptP mw mh f then 1 else 0) + (if delWouldP mw mh dry f then 1 else 0)
        + (if errP mw mh dry f then 1 else 0) : Nat) = 1) := by
  obtain ⟨h1, h2, h3, hn, hc, hns, hg⟩ := dsi_completed_inv hrun
  subst hn hc
  have hk := processFiles_kept mw mh dry (imageCandidates folder)
  have he := processFiles_errored mw mh dry (imageCandidates folder)
  have hpart := filterPartition mw mh dry (imageCandidates folder)
  have hd : effectiveDeleted dry (imageCandidates folder).length
      (processFiles mw mh dry (imageCandidates folder)).1 =
      ((imageCandidates folder).filter (delWouldP mw mh dry)).length := by
    cases dry with
    | false =>
      show (processFiles mw mh false (imageCandidates folder)).1.deleted = _
      rw [processFiles_deleted_nondry]
      have hpt : ∀ a ∈ imageCandidates folder, delP mw mh a = delWouldP mw mh false a := by
        intro a _
        rw [delWouldP_false]
        simp
      rw [List.filter_congr hpt]
    | true =>
      show (imageCandidates folder).length - _ - _ = _
      rw [hk, he]
      omega
  refine ⟨hk, he, hd, ?_, fun f _ => counterPartition mw mh dry f⟩
  rw [hk, he, hd]
  omega

/-- C1 witness: the three-image sample folder at threshold 400x400,
non-dry: kept=1, deleted=1, errored=1, and 1+1+1 = 3 candidates. -/
theorem C1_counters_partition_witness :
    delete_small_images sampleFolder 400 400 false =
      (RunResult.completed 3 sampleCounters sampleNotices, sampleAfter) ∧
    (sampleCounters.kept = ((imageCandidates sampleFolder).filter (keptP 400 400)).length ∧
     sampleCounters.errored =
       ((imageCandidates sampleFolder).filter (errP 400 400 false)).length ∧
     effectiveDeleted false 3 sampleCounters =
       ((imageCandidates sampleFolder).filter (delWouldP 400 400 false)).length ∧
     sampleCounters.kept + effectiveDeleted false 3 sampleCounters
       + sampleCounters.errored = 3 ∧
     (∀ f ∈ imageCandidates sampleFolder,
       ((if keptP 400 400 f then 1 else 0) + (if delWouldP 400 400 false f then 1 else 0)
         + (if errP 400 400 false f then 1 else 0) : Nat) = 1)) :=
  ⟨by decide,
   C1_counters_partition sampleFolder 400 400 false 3 sampleCounters sampleNotices
     sampleAfter (by decide)⟩

/-- C9: under dry run the summary's would-delete value, derived as
candidates − kept − errored, equals the direct count of successfully-read
undersized candidates; no per-candidate deleted counter is incremented. -/
theorem C9_dry_summary_refines (folder : Folder) (mw mh : Int)
    (n : Nat) (c : RunCounters) (ns : List Notice) (g : Folder)
    (hrun : delete_small_images folder mw mh true = (RunResult.completed n c ns, g)) :
    c.deleted = 0 ∧
    n - c.kept - c.errored = specWouldDeleteCount mw mh folder := by
  obtain ⟨h1, h2, h3, hn, hc, hns, hg⟩ := dsi_completed_inv hrun
  subst hn hc
  refine ⟨processFiles_deleted_dry mw mh _, ?_⟩
  have hk := processFiles_kept mw mh true (imageCandidates folder)
  have he := processFiles_errored mw mh true (imageCandidates folder)
  have hpart := filterPartition mw mh true (imageCandidates folder)
  have hw : ((imageCandidates folder).filter (delWouldP mw mh true)).length =
      specWouldDeleteCount mw mh folder := by
    unfold specWouldDeleteCount
    have hpt : ∀ a ∈ imageCandidates folder,
        delWouldP mw mh true a = undersizedB mw mh a :=
      fun a _ => delWouldP_true mw mh a
    rw [List.filter_congr hpt]
  rw [hk, he]
  omega

/-- C9 witness: dry run on the sample folder reports 3 − 1 − 1 = 1
would-be-deleted file, matching the one undersized readable candidate. -/
theorem C9_dry_summary_refines_witness :
    delete_small_images sampleFolder 400 400 true =
      (RunResult.completed 3 { deleted := 0, kept := 1, errored := 1 }
        [Notice.kept "a.jpg" 800 600, Notice.wouldDelete "b.png" 200 200,
         Notice.warningRead "c.webp"], sampleFolder) ∧
    (({ deleted := 0, kept := 1, errored := 1 } : RunCounters).deleted = 0 ∧
     3 - ({ deleted := 0, kept := 1, errored := 1 } : RunCounters).kept
       - ({ deleted := 0, kept := 1, errored := 1 } : RunCounters).errored =
       specWouldDeleteCount 400 400 sampleFolder) :=
  ⟨by decide,
   C9_dry_summary_refines sampleFolder 400 400 3
     { deleted := 0, kept := 1, errored := 1 }
     [Notice.kept "a.jpg" 800 600, Notice.wouldDelete "b.png" 200 200,
      Notice.warningRead "c.webp"] sampleFolder (by decide)⟩

/-- C10: thresholds are never validated; with minWidth ≤ 1 and
minHeight ≤ 1 (zero and negatives included), when every readable
candidate has positive dimensions no candidate is undersized: the folder
is unchanged, nothing is deleted, every readable candidate is kept, and
the reported deleted/would-delete value is 0. -/
theorem C10_low_threshold_keeps_all (folder : Folder) (mw mh : Int) (dry : Bool)
    (hle1 : mw ≤ 1) (hle2 : mh ≤ 1)
    (hpos : ∀ f ∈ imageCandidates folder, ∀ w h : Int,
      f.dims = some (w, h) → 0 < w ∧ 0 < h) :
    (delete_small_images folder mw mh dry).2 = folder ∧
    resultDeleted (delete_small_images folder mw mh dry).1 = 0 ∧
    (∀ n c ns g, delete_small_images folder mw mh dry = (RunResult.completed n c ns, g) →
      c.kept = ((imageCandidates folder).filter readableB).length ∧
      effectiveDeleted dry n c = 0) := by
  have hund : ∀ f ∈ imageCandidates folder, undersizedB mw mh f = false := by
    intro f hf
    unfold undersizedB
    cases hd : f.dims with
    | none => rfl
    | some p =>
      obtain ⟨wd, ht⟩ := p
      obtain ⟨hw, hh⟩ := hpos f hf wd ht hd
      have hw2 : ¬(wd < mw) := by omega
      have hh2 : ¬(ht < mh) := by omega
      simp [hw2, hh2]
  have hdelP : ∀ f ∈ imageCandidates folder, (!dry && delP mw mh f) = false := by
    intro f hf
    unfold delP
    rw [hund f hf]
    simp
  have hrem : (processFiles mw mh dry (imageCandidates folder)).2.2 = [] := by
    rw [processFiles_removed, List.filter_eq_nil_iff]
    intro a ha
    simp [hdelP a ha]
  have hdel0 : (processFiles mw mh dry (imageCandidates folder)).1.deleted = 0 := by
    rw [processFiles_deleted, List.length_eq_zero, List.filter_eq_nil_iff]
    intro a ha
    simp [hdelP a ha]
  have hkept : ((imageCandidates folder).filter (keptP mw mh)) =
      ((imageCandidates folder).filter readableB) := by
    apply List.filter_congr
    intro a ha
    have hu := hund a ha
    cases hd : a.dims with
    | none =>
      unfold keptP readableB
      rw [hd]
      simp
    | some p =>
      obtain ⟨wd, ht⟩ := p
      unfold undersizedB at hu
      rw [hd] at hu
      unfold keptP readableB
      rw [hd]
      simp at hu ⊢
      omega
  refine ⟨?_, ?_, ?_⟩
  · by_cases h1 : folder.fexists = true
    · by_cases h2 : folder.is_dir = true
      · by_cases h3 : (imageCandidates folder).isEmpty = false
        · rw [dsi_eq folder mw mh dry h1 h2 h3, hrem, survivors_nil]
        · rw [dsi_noImages folder mw mh dry h1 h2 (by simpa using h3)]
      · rw [dsi_invalid folder mw mh dry (Or.inr (by simpa using h2))]
    · rw [dsi_invalid folder mw mh dry (Or.inl (by simpa using h1))]
  · by_cases h1 : folder.fexists = true
    · by_cases h2 : folder.is_dir = true
      · by_cases h3 : (imageCandidates folder).isEmpty = false
        · rw [dsi_eq folder mw mh dry h1 h2 h3]
          exact hdel0
        · rw [dsi_noImages folder mw mh dry h1 h2 (by simpa using h3)]
          rfl
      · rw [dsi_invalid folder mw mh dry (Or.inr (by simpa using h2))]
        rfl
    · rw [dsi_invalid folder mw mh dry (Or.inl (by simpa using h1))]
      rfl
  · intro n c ns g hrun
    obtain ⟨h1, h2, h3, hn, hc, hns, hg⟩ := dsi_completed_inv hrun
    subst hn hc
    refine ⟨by rw [processFiles_kept, hkept], ?_⟩
    cases dry with
    | false => exact hdel0
    | true =>
      have hpart := filterPartition mw mh true (imageCandidates folder)
      have hw0 : ((imageCandidates folder).filter (delWouldP mw mh true)).length = 0 := by
        rw [List.length_eq_zero, List.filter_eq_nil_iff]
        intro a ha
        rw [delWouldP_true]
        simp [hund a ha]
      show (imageCandidates folder).length - _ - _ = 0
      rw [processFiles_kept, processFiles_errored]
      omega

/-- C10 witness: threshold 0x0 on the sample folder (all readable
dimensions positive): state unchanged, nothing deleted, both readable
candidates kept. -/
theorem C10_low_threshold_keeps_all_witness :
    ((0 : Int) ≤ 1) ∧
    (∀ f ∈ imageCandidates sampleFolder, ∀ w h : Int,
      f.dims = some (w, h) → 0 < w ∧ 0 < h) ∧
    ((delete_small_images sampleFolder 0 0 false).2 = sampleFolder ∧
     resultDeleted (delete_small_images sampleFolder 0 0 false).1 = 0 ∧
     (∀ n c ns g,
        delete_small_images sampleFolder 0 0 false = (RunResult.completed n c ns, g) →
        c.kept = ((imageCandidates sampleFolder).filter readableB).length ∧
        effectiveDeleted false n c = 0)) := by
  have hpos : ∀ f ∈ imageCandidates sampleFolder, ∀ w h : Int,
      f.dims = some (w, h) → 0 < w ∧ 0 < h := by
    intro f hf w h hd
    have hc : imageCandidates sampleFolder = [sampleBig, sampleSmall, sampleCorrupt] := by
      decide
    rw [hc] at hf
    have hmem : f = sampleBig ∨ f = sampleSmall ∨ f = sampleCorrupt := by
      simpa using hf
    rcases hmem with rfl | rfl | rfl
    · simp [sampleBig] at hd
      omega
    · simp [sampleSmall] at hd
      omega
    · simp [sampleCorrupt] at hd
  exact ⟨by decide, hpos,
    C10_low_threshold_keeps_all sampleFolder 0 0 false (by decide) (by decide) hpos⟩

theorem not_deleted_survives (folder : Folder) (mw mh : Int) (dry : Bool)
    (f : FileEntry) (hmem : f ∈ folder.files) (hdel : delP mw mh f = false) :
    f ∈ ((delete_small_images folder mw mh dry).2).files := by
  by_cases h1 : folder.fexists = true
  · by_cases h2 : folder.is_dir = true
    · by_cases h3 : (imageCandidates folder).isEmpty = false
      · rw [dsi_eq folder mw mh dry h1 h2 h3]
        show f ∈ (survivors folder (processFiles mw mh dry (imageCandidates folder)).2.2).files
        unfold survivors
        refine List.mem_filter.mpr ⟨hmem, ?_⟩
        rw [processFiles_removed]
        simp only [Bool.not_eq_true', decide_eq_false_iff_not]
        intro hin
        have := (List.mem_filter.mp hin).2
        simp [hdel] at this
      · rw [dsi_noImages folder mw mh dry h1 h2 (by simpa using h3)]
        exact hmem
    · rw [dsi_invalid folder mw mh dry (Or.inr (by simpa using h2))]
      exact hmem
  · rw [dsi_invalid folder mw mh dry (Or.inl (by simpa using h1))]
    exact hmem

/-- C5: per-file errors are never fatal.  A candidate whose dimensions
cannot be read, or (non-dry) whose deletion fails, adds exactly one to
`errored`, changes no other counter, removes nothing from disk, emits an
error notice naming the file, and the remaining candidates are still
processed; in the full run such a file always survives in the folder. -/
theorem C5_per_file_errors_nonfatal (mw mh : Int) (dry : Bool) (f : FileEntry)
    (rest : List FileEntry)
    (herr : f.dims = none ∨
      (dry = false ∧ undersizedB mw mh f = true ∧ f.deletable = false)) :
    (processFiles mw mh dry (f :: rest)).1.errored =
      (processFiles mw mh dry rest).1.errored + 1 ∧
    (processFiles mw mh dry (f :: rest)).1.kept =
      (processFiles mw mh dry rest).1.kept ∧
    (processFiles mw mh dry (f :: rest)).1.deleted =
      (processFiles mw mh dry rest).1.deleted ∧
    (processFiles mw mh dry (f :: rest)).2.2 = (processFiles mw mh dry rest).2.2 ∧
    (∃ nt, noticeIsError nt = true ∧ noticeName nt = f.name ∧
      (processFiles mw mh dry (f :: rest)).2.1 =
        nt :: (processFiles mw mh dry rest).2.1) ∧
    (∀ folder : Folder, f ∈ folder.files →
      f ∈ ((delete_small_images folder mw mh dry).2).files) := by
  have hdelPf : delP mw mh f = false := by
    unfold delP
    rcases herr with hnone | ⟨hdry, hund, hdel⟩
    · unfold undersizedB
      rw [hnone]
      rfl
    · rw [hdel]
      simp
  have hpf : ∃ nt, noticeIsError nt = true ∧ noticeName nt = f.name ∧
      processFile mw mh dry f =
        ({ deleted := 0, kept := 0, errored := 1 }, [nt], []) := by
    rcases herr with hnone | ⟨hdry, hund, hdel⟩
    · refine ⟨Notice.warningRead f.name, rfl, rfl, ?_⟩
      unfold processFile
      rw [hnone]
    · cases hd : f.dims with
      | none =>
        unfold undersizedB at hund
        rw [hd] at hund
        exact absurd hund (by simp)
      | some p =>
        obtain ⟨w, h⟩ := p
        unfold undersizedB at hund
        rw [hd] at hund
        have hcond : (decide (w < mw) || decide (h < mh)) = true := by
          simpa using hund
        refine ⟨Notice.errorDeleting f.name, rfl, rfl, ?_⟩
        unfold processFile
        rw [hd]
        subst hdry
        simp [hcond, hdel]
  obtain ⟨nt, hnt1, hnt2, hpfe⟩ := hpf
  refine ⟨?_, ?_, ?_, ?_, ⟨nt, hnt1, hnt2, ?_⟩, ?_⟩
  · simp only [processFiles, hpfe]
    omega
  · simp only [processFiles, hpfe]
    omega
  · simp only [processFiles, hpfe]
    omega
  · simp only [processFiles, hpfe]
    simp
  · simp only [processFiles, hpfe]
    simp
  · intro folder hmem
    exact not_deleted_survives folder mw mh dry f hmem hdelPf

/-- C5 witness: the corrupt sample file adds one error, removes nothing,
emits its warning, and the rest of the list is still processed. -/
theorem C5_per_file_errors_nonfatal_witness :
    sampleCorrupt.dims = none ∧
    ((processFiles 400 400 false (sampleCorrupt :: [sampleSmall])).1.errored =
       (processFiles 400 400 false [sampleSmall]).1.errored + 1 ∧
     (processFiles 400 400 false (sampleCorrupt :: [sampleSmall])).1.kept =
       (processFiles 400 400 false [sampleSmall]).1.kept ∧
     (processFiles 400 400 false (sampleCorrupt :: [sampleSmall])).1.deleted =
       (processFiles 400 400 false [sampleSmall]).1.deleted ∧
     (processFiles 400 400 false (sampleCorrupt :: [sampleSmall])).2.2 =
       (processFiles 400 400 false [sampleSmall]).2.2 ∧
     (∃ nt, noticeIsError nt = true ∧ noticeName nt = sampleCorrupt.name ∧
       (processFiles 400 400 false (sampleCorrupt :: [sampleSmall])).2.1 =
         nt :: (processFiles 400 400 false [sampleSmall]).2.1) ∧
     (∀ folder : Folder, sampleCorrupt ∈ folder.files →
       sampleCorrupt ∈ ((delete_small_images folder 400 400 false).2).files)) :=
  ⟨rfl, C5_per_file_errors_nonfatal 400 400 false sampleCorrupt [sampleSmall] (Or.inl rfl)⟩

theorem imageCandidates_append_nonimage (folder : Folder) (f : FileEntry)
    (hni : is_image_file f.name = false) :
    imageCandidates { folder with files := folder.files ++ [f] } =
      imageCandidates folder := by
  unfold imageCandidates
  simp only [List.filter_append]
  by_cases hf : f.isFile = true <;> simp [hf, hni]

theorem nonimage_not_in_candidates (folder : Folder) (f : FileEntry)
    (hni : is_image_file f.name = false) (l : List FileEntry)
    (hsub : ∀ x ∈ l, x ∈ imageCandidates folder) : f ∉ l := by
  intro hmem
  have := mem_imageCandidates (hsub f hmem)
  rw [hni] at this
  exact Bool.false_ne_true this.2.2

/-- C3: a file is a candidate exactly when its lowercased suffix is one
of the eight recognized extensions; appending a file with any other
extension to the folder changes no outcome (it is never opened, deleted,
or counted) and the file itself always survives. -/
theorem C3_extension_filter :
    (∀ name : String, is_image_file name = true ↔
      strLower (pySuffix name) ∈
        ([".jpg", ".jpeg", ".png", ".bmp", ".gif", ".tiff", ".tif", ".webp"] :
          List String)) ∧
    (∀ (folder : Folder) (mw mh : Int) (dry : Bool) (f : FileEntry),
      is_image_file f.name = false →
      (delete_small_images { folder with files := folder.files ++ [f] } mw mh dry).1 =
        (delete_small_images folder mw mh dry).1 ∧
      ((delete_small_images { folder with files := folder.files ++ [f] } mw mh dry).2).files =
        ((delete_small_images folder mw mh dry).2).files ++ [f]) := by
  constructor
  · intro name
    unfold is_image_file image_extensions
    simp
  · intro folder mw mh dry f hni
    have hcand := imageCandidates_append_nonimage folder f hni
    by_cases h1 : folder.fexists = true
    · by_cases h2 : folder.is_dir = true
      · by_cases h3 : (imageCandidates folder).isEmpty = false
        · have h3' : (imageCandidates
              { folder with files := folder.files ++ [f] }).isEmpty = false := by
            rw [hcand]
            exact h3
          rw [dsi_eq { folder with files := folder.files ++ [f] } mw mh dry h1 h2 h3',
            dsi_eq folder mw mh dry h1 h2 h3, hcand]
          refine ⟨rfl, ?_⟩
          show (survivors { folder with files := folder.files ++ [f] }
              (processFiles mw mh dry (imageCandidates folder)).2.2).files = _
          unfold survivors
          simp only [List.filter_append]
          have hfnot : f ∉ (processFiles mw mh dry (imageCandidates folder)).2.2 := by
            refine nonimage_not_in_candidates folder f hni _ ?_
            intro x hx
            rw [processFiles_removed] at hx
            exact (List.mem_filter.mp hx).1
          simp [hfnot]
        · have h3' : (imageCandidates
              { folder with files := folder.files ++ [f] }).isEmpty = true := by
            rw [hcand]
            simpa using h3
          rw [dsi_noImages { folder with files := folder.files ++ [f] } mw mh dry h1 h2 h3',
            dsi_noImages folder mw mh dry h1 h2 (by simpa using h3)]
          exact ⟨rfl, rfl⟩
      · rw [dsi_invalid { folder with files := folder.files ++ [f] } mw mh dry
            (Or.inr (by simpa using h2)),
          dsi_invalid folder mw mh dry (Or.inr (by simpa using h2))]
        exact ⟨rfl, rfl⟩
    · rw [dsi_invalid { folder with files := folder.files ++ [f] } mw mh dry
          (Or.inl (by simpa using h1)),
        dsi_invalid folder mw mh dry (Or.inl (by simpa using h1))]
      exact ⟨rfl, rfl⟩

/-- C3 witness: appending `notes.txt` to the sample folder changes no
outcome, and the file survives at the end of the run. -/
theorem C3_extension_filter_witness :
    is_image_file sampleText.name = false ∧
    ((delete_small_images { sampleFolder with
        files := sampleFolder.files ++ [sampleText] } 400 400 false).1 =
      (delete_small_images sampleFolder 400 400 false).1 ∧
     ((delete_small_images { sampleFolder with
        files := sampleFolder.files ++ [sampleText] } 400 400 false).2).files =
      ((delete_small_images sampleFolder 400 400 false).2).files ++ [sampleText]) :=
  ⟨by decide, C3_extension_filter.2 sampleFolder 400 400 false sampleText (by decide)⟩

/-- C6 counterexample: the input " y" (leading space) is not "yes" or
"y" under case-insensitive comparison alone, yet the scan proceeds,
because the code also strips surrounding whitespace. -/
theorem C6_confirmation_counterexample :
    (mainRun sampleFolder 400 400 false " y").1.isSome = true ∧
    strLower " y" ≠ "yes" ∧ strLower " y" ≠ "y" := by
  decide

/-- C6 (amended): without --dry-run the scan proceeds iff the operator's
input, lowercased and stripped of surrounding whitespace, is "yes" or
"y"; any other input cancels the run, leaving the folder untouched and
producing no result. -/
theorem C6_confirmation_gate (folder : Folder) (w h : Int) (resp : String) :
    ((mainRun folder w h false resp).1.isSome = true ↔
      (pyStrip (strLower resp) = "yes" ∨ pyStrip (strLower resp) = "y")) ∧
    (¬(pyStrip (strLower resp) = "yes" ∨ pyStrip (strLower resp) = "y") →
      mainRun folder w h false resp = (none, folder)) := by
  have hiff : confirmAccepted resp = true ↔
      (pyStrip (strLower resp) = "yes" ∨ pyStrip (strLower resp) = "y") := by
    unfold confirmAccepted
    simp
  constructor
  · rw [← hiff]
    unfold mainRun
    by_cases hca : confirmAccepted resp = true <;> simp [hca]
  · intro hnot
    rw [← hiff] at hnot
    have hfalse : confirmAccepted resp = false := by
      simpa using hnot
    unfold mainRun
    simp [hfalse]

/-- C6 witness: the input "no" cancels the run with no side effects. -/
theorem C6_confirmation_gate_witness :
    ¬(pyStrip (strLower "no") = "yes" ∨ pyStrip (strLower "no") = "y") ∧
    mainRun sampleFolder 400 400 false "no" = (none, sampleFolder) :=
  ⟨by decide, (C6_confirmation_gate sampleFolder 400 400 "no").2 (by decide)⟩
